import Mathlib

/-!
Verification of the Workday calendar library (C++ sources: `Date`,
`TimeUtils`, `GregorianCalendar`, `WorkdayCalendar`).

The embedding below translates the C++ code directly:

* C++ `int`/`long` values are modelled as `Int`; C++ `/` and `%` (which
  truncate toward zero) are modelled by `Int.tdiv` / `Int.tmod`.
* The `float incrementInWorkdays` parameter of `getWorkdayIncrement` is
  modelled as a rational number; every concrete increment appearing in a
  claim (`0.25`, `0.5`, `0`) is exactly representable in binary floating
  point and the products with the small integer durations are exact, so
  the rational model agrees with the C++ float arithmetic at those inputs.
* The `std::set<std::string>` of one-time holidays keys entries by the
  zero-padded "YYYY-MM-DD " string of a date.  Keys are only ever inserted
  for dates that passed `isValidDate`, and on such dates the string is
  injective in (year, month, day) and never collides with the string of a
  date having a negative component; the set is therefore modelled as a
  collection of (year, month, day) triples compared componentwise.
* `while` loops whose iteration count is not structurally bounded
  (the holiday-skipping loops) take an explicit fuel argument and return
  `none` when the fuel runs out; loops bounded by a computed count
  (work weeks / work days) are modelled by bounded iteration.
* The unchecked C++ access `t[month_ - 1]` into the 12-entry day-of-week
  table is modelled by `dayOfWeek?`, which returns `none` exactly when the
  index is out of bounds (undefined behaviour in the source); the total
  `dayOfWeek` used by the rest of the embedding collapses that case to a
  default, mirroring that the C++ code proceeds with whatever the
  out-of-bounds read produced.
-/

namespace Workday

/-- The `Date` value type (`Date.h`): five `int` fields. -/
structure Date where
  year : Int
  month : Int
  day : Int
  hour : Int
  minute : Int
deriving DecidableEq, Repr

/-- `Date::setDate`: overwrites all five components. -/
def Date.setDate (_d : Date) (year month day hour minute : Int) : Date :=
  ⟨year, month, day, hour, minute⟩

/-- `Date::getTime`: the (hour, minute) pair. -/
def Date.getTime (d : Date) : Int × Int :=
  (d.hour, d.minute)

/-- `Date::generateInvalidDate`: the all-(-1) sentinel. -/
def Date.generateInvalidDate (_d : Date) : Date :=
  ⟨-1, -1, -1, -1, -1⟩

/-- The month-offset table of `Date::dayOfWeek`
(Sakamoto/Lachman/Keith/Craver method, `Date.cpp`). -/
def sakamotoTable : List Int := [0, 3, 2, 5, 0, 3, 5, 1, 4, 6, 2, 4]

/-- `Date::dayOfWeek`, with the unchecked C++ array access `t[month_ - 1]`
made explicit: `none` exactly when the index `month - 1` falls outside the
12-entry table (undefined behaviour in the source). -/
def dayOfWeek? (d : Date) : Option Int :=
  let y := d.year - (if d.month < 3 then 1 else 0)
  let idx := d.month - 1
  if h : 0 ≤ idx ∧ idx.toNat < sakamotoTable.length then
    some ((y + y.tdiv 4 - y.tdiv 100 + y.tdiv 400
            + sakamotoTable.get ⟨idx.toNat, h.2⟩ + d.day).tmod 7)
  else
    none

/-- Total wrapper for `Date::dayOfWeek` (0 = Sunday .. 6 = Saturday);
the out-of-bounds case collapses to a default value. -/
def dayOfWeek (d : Date) : Int :=
  (dayOfWeek? d).getD 0

/-- `TimeUtils::convertToMinutes`. -/
def convertToMinutes (t : Int × Int) : Int :=
  t.1 * 60 + t.2

/-- `TimeUtils::addMinutes`: no 24-hour wraparound. -/
def addMinutes (left right : Int) : Int × Int :=
  let total := left + right
  (total.tdiv 60, total.tmod 60)

/-- `TimeUtils::subtractMinutes`: adds 1440 when the difference is negative. -/
def subtractMinutes (larger smaller : Int) : Int × Int :=
  let diff := larger - smaller
  let diff := if diff < 0 then diff + 1440 else diff
  (diff.tdiv 60, diff.tmod 60)

/-- `TimeUtils::subtractTime` on (hour, minute) pairs. -/
def subtractTime (larger smaller : Int × Int) : Int × Int :=
  let diff := convertToMinutes larger - convertToMinutes smaller
  let diff := if diff < 0 then diff + 1440 else diff
  (diff.tdiv 60, diff.tmod 60)

/-- `GregorianCalendar::isLeapYear` (C++ `%` is truncating `tmod`). -/
def isLeapYear (year : Int) : Bool :=
  if year.tmod 4 ≠ 0 then false
  else if year.tmod 100 ≠ 0 then true
  else if year.tmod 400 = 0 then true
  else false

/-- `GregorianCalendar::daysInMonth` (default case of the `switch` is 30). -/
def daysInMonth (year month : Int) : Int :=
  if month = 1 ∨ month = 3 ∨ month = 5 ∨ month = 7
      ∨ month = 8 ∨ month = 10 ∨ month = 12 then 31
  else if month = 4 ∨ month = 6 ∨ month = 9 ∨ month = 11 then 30
  else if month = 2 then (if isLeapYear year then 29 else 28)
  else 30

/-- `GregorianCalendar::isValidDate`. -/
def isValidDate (d : Date) : Bool :=
  if d.year < 0 ∨ d.month < 1 ∨ d.month > 12 ∨ d.day < 1
      ∨ d.day > daysInMonth d.year d.month then false
  else if d.hour < 0 ∨ 24 ≤ d.hour ∨ d.minute < 0 ∨ 60 ≤ d.minute then false
  else true

/-- The two holiday sets owned by `GregorianCalendar`: one-time holidays
keyed by (year, month, day) and recurring holidays keyed by (month, day). -/
structure Holidays where
  oneTime : List (Int × Int × Int)
  recurring : List (Int × Int)
deriving DecidableEq, Repr

/-- The empty holiday configuration (a freshly constructed calendar). -/
def noHolidays : Holidays :=
  ⟨[], []⟩

/-- `GregorianCalendar::setHoliday`: inserts only valid dates. -/
def setHoliday (hs : Holidays) (d : Date) : Holidays :=
  if isValidDate d then
    { hs with oneTime := (d.year, d.month, d.day) :: hs.oneTime }
  else hs

/-- `GregorianCalendar::setRecurringHoliday`: inserts only valid dates. -/
def setRecurringHoliday (hs : Holidays) (d : Date) : Holidays :=
  if isValidDate d then
    { hs with recurring := (d.month, d.day) :: hs.recurring }
  else hs

/-- `GregorianCalendar::isHoliday`: weekend first (short-circuit), then the
one-time set, then the recurring set; no validity check of `d`. -/
def isHoliday (hs : Holidays) (d : Date) : Bool :=
  let day_of_week := dayOfWeek d
  if day_of_week = 0 ∨ day_of_week = 6 then true
  else if hs.oneTime.contains (d.year, d.month, d.day) then true
  else if hs.recurring.contains (d.month, d.day) then true
  else false

/-- `GregorianCalendar::addDay`: one calendar day forward with month/year
rollover; hour and minute are copied unchanged. -/
def addDay (d : Date) : Date :=
  let newYear := d.year
  let newMonth := d.month
  let newDay := d.day + 1
  if newDay > daysInMonth newYear newMonth then
    if newMonth + 1 > 12 then
      d.setDate (newYear + 1) 1 1 d.hour d.minute
    else
      d.setDate newYear (newMonth + 1) 1 d.hour d.minute
  else
    d.setDate newYear newMonth newDay d.hour d.minute

/-- `GregorianCalendar::removeDay`: one calendar day backward with
month/year rollover; hour and minute are copied unchanged. -/
def removeDay (d : Date) : Date :=
  let newYear := d.year
  let newMonth := d.month
  let newDay := d.day - 1
  if newDay < 1 then
    if newMonth - 1 < 1 then
      d.setDate (newYear - 1) 12 (daysInMonth (newYear - 1) 12) d.hour d.minute
    else
      d.setDate newYear (newMonth - 1) (daysInMonth newYear (newMonth - 1)) d.hour d.minute
  else
    d.setDate newYear newMonth newDay d.hour d.minute

/-- The mutable state of `WorkdayCalendar`: the three `unique_ptr<Date>`
configuration slots (`nullptr` = `none`) and the holiday sets of the owned
`GregorianCalendar`. -/
structure WorkdayCalendar where
  workday_start : Option Date
  workday_stop : Option Date
  workday_duration : Option Date
  holidays : Holidays
deriving DecidableEq, Repr

/-- A freshly constructed `WorkdayCalendar`: all three slots null. -/
def WorkdayCalendar.init : WorkdayCalendar :=
  ⟨none, none, none, noHolidays⟩

/-- `WorkdayCalendar::updateWorkingDuration`: the duration `Date` built
from `subtractTime(stop.getTime(), start.getTime())` with zero Y/M/D. -/
def durationDate (start stop : Date) : Date :=
  let hm := subtractTime stop.getTime start.getTime
  ⟨0, 0, 0, hm.1, hm.2⟩

/-- `WorkdayCalendar::setWorkdayStartAndStop`: either argument invalid
clears both slots (the duration slot is left as it was); both valid stores
copies and recomputes the duration. -/
def setWorkdayStartAndStop (w : WorkdayCalendar) (start stop : Date) : WorkdayCalendar :=
  if isValidDate start = false then
    { w with workday_start := none, workday_stop := none }
  else if isValidDate stop = false then
    { w with workday_start := none, workday_stop := none }
  else
    { w with
      workday_start := some start
      workday_stop := some stop
      workday_duration := some (durationDate start stop) }

/-- One calendar-day step in the given direction (`removeDay` when
decrementing, `addDay` otherwise). -/
def skipStep (decrement : Bool) (d : Date) : Date :=
  if decrement then removeDay d else addDay d

/-- The `while (calendar_->isHoliday(startDate))` loop shared by
`incrementWorkDay`: steps one day at a time until a non-holiday date;
`none` when the fuel runs out (the C++ loop would still be running). -/
def skipWhileHoliday (hs : Holidays) (decrement : Bool) : Nat → Date → Option Date
  | 0, d => if isHoliday hs d then none else some d
  | (n + 1), d =>
    if isHoliday hs d then skipWhileHoliday hs decrement n (skipStep decrement d)
    else some d

/-- `WorkdayCalendar::incrementWorkDay`: one unconditional day step, then
holiday skipping. -/
def incrementWorkDay (hs : Holidays) (decrement : Bool) (fuel : Nat) (d : Date) : Option Date :=
  skipWhileHoliday hs decrement fuel (skipStep decrement d)

/-- Bounded iteration of a fallible step (models C++ counted loops). -/
def iterOpt (f : Date → Option Date) : Nat → Date → Option Date
  | 0, d => some d
  | (n + 1), d =>
    match f d with
    | none => none
    | some d1 => iterOpt f n d1

/-- `WorkdayCalendar::incrementWorkWeek`: five `incrementWorkDay` steps
(`WORKWEEK_DURATION = 5`). -/
def incrementWorkWeek (hs : Holidays) (decrement : Bool) (fuel : Nat) (d : Date) : Option Date :=
  iterOpt (incrementWorkDay hs decrement fuel) 5 d

/-- One step of the holiday-alignment loop at the top of
`getWorkdayIncrement`: a day step followed by resetting the clock to the
workday stop (decrement) or start (increment) time. -/
def alignStep (start stop : Date) (decrement : Bool) (d : Date) : Date :=
  if decrement then
    let d1 := removeDay d
    d1.setDate d1.year d1.month d1.day stop.hour stop.minute
  else
    let d1 := addDay d
    d1.setDate d1.year d1.month d1.day start.hour start.minute

/-- The holiday-alignment `while` loop at the top of
`getWorkdayIncrement` (fuel-bounded). -/
def alignToWorkday (hs : Holidays) (start stop : Date) (decrement : Bool) :
    Nat → Date → Option Date
  | 0, d => if isHoliday hs d then none else some d
  | (n + 1), d =>
    if isHoliday hs d then
      alignToWorkday hs start stop decrement n (alignStep start stop decrement d)
    else some d

/-- `WorkdayCalendar::addRemainingMinutes`: boundary-aware addition of the
leftover minutes within the work window. -/
def addRemainingMinutes (hs : Holidays) (start stop : Date) (fuel : Nat)
    (minutes : Int) (current : Date) : Option Date :=
  let stop_minutes := convertToMinutes stop.getTime
  let start_minutes := convertToMinutes start.getTime
  let current_minutes := convertToMinutes current.getTime
  let snapped : Option (Date × Int) :=
    if current_minutes ≥ stop_minutes then
      (incrementWorkDay hs false fuel current).map fun c =>
        let c1 := c.setDate c.year c.month c.day start.hour start.minute
        (c1, convertToMinutes c1.getTime)
    else if current_minutes < start_minutes then
      let c1 := current.setDate current.year current.month current.day start.hour start.minute
      some (c1, convertToMinutes c1.getTime)
    else
      some (current, current_minutes)
  snapped.bind fun cp =>
    if cp.2 + minutes ≤ stop_minutes then
      let hm := addMinutes cp.2 minutes
      some (cp.1.setDate cp.1.year cp.1.month cp.1.day hm.1 hm.2)
    else
      (incrementWorkDay hs false fuel cp.1).map fun c2 =>
        let remaining_minutes := (cp.2 + minutes) - stop_minutes
        let hm := addMinutes start_minutes remaining_minutes
        c2.setDate c2.year c2.month c2.day hm.1 hm.2

/-- `WorkdayCalendar::removeRemainingMinutes`: boundary-aware subtraction
of the leftover minutes within the work window. -/
def removeRemainingMinutes (hs : Holidays) (start stop : Date) (fuel : Nat)
    (minutes : Int) (current : Date) : Option Date :=
  let stop_minutes := convertToMinutes stop.getTime
  let start_minutes := convertToMinutes start.getTime
  let current_minutes := convertToMinutes current.getTime
  let snapped : Option (Date × Int) :=
    if current_minutes ≥ stop_minutes then
      let c1 := current.setDate current.year current.month current.day stop.hour stop.minute
      some (c1, convertToMinutes c1.getTime)
    else if current_minutes < start_minutes then
      (incrementWorkDay hs true fuel current).map fun c =>
        let c1 := c.setDate c.year c.month c.day stop.hour stop.minute
        (c1, convertToMinutes c1.getTime)
    else
      some (current, current_minutes)
  snapped.bind fun cp =>
    if cp.2 - minutes ≥ start_minutes then
      let hm := subtractMinutes cp.2 minutes
      some (cp.1.setDate cp.1.year cp.1.month cp.1.day hm.1 hm.2)
    else
      (incrementWorkDay hs true fuel cp.1).map fun c2 =>
        let remaining_minutes := start_minutes - (cp.2 - minutes)
        let hm := subtractMinutes stop_minutes remaining_minutes
        c2.setDate c2.year c2.month c2.day hm.1 hm.2

/-- Result of `getWorkdayIncrement`: a returned `Date`, the
division-by-zero abort (C++ undefined behaviour, not a catchable
exception), or fuel exhaustion (the C++ loop would still be running). -/
inductive CalcResult where
  | ok (d : Date)
  | crash
  | fuelOut
deriving DecidableEq, Repr

/-- The integer part of `WorkdayCalendar::getWorkdayIncrement` (source
lines following the conversion of the increment to minutes): holiday
alignment, work-week stepping, remaining work-day stepping, and the
remaining-minutes adjustment. -/
def workdayIncrementCore (fuel : Nat) (hs : Holidays) (ws wp : Date) (decrement : Bool)
    (workdayInMinutes workDay_IncrementInMinutes : Int) (startDate : Date) : CalcResult :=
  let workDays := workDay_IncrementInMinutes.tdiv workdayInMinutes
  let workWeeks := workDays.tdiv 5
  match alignToWorkday hs ws wp decrement fuel startDate with
  | none => .fuelOut
  | some c1 =>
    match iterOpt (incrementWorkWeek hs decrement fuel) workWeeks.toNat c1 with
    | none => .fuelOut
    | some c2 =>
      let remainingWorkDays := workDays.tmod 5
      match iterOpt (incrementWorkDay hs decrement fuel) remainingWorkDays.toNat c2 with
      | none => .fuelOut
      | some c3 =>
        let remaining_minutes := workDay_IncrementInMinutes.tmod workdayInMinutes
        match (if decrement then
                removeRemainingMinutes hs ws wp fuel remaining_minutes c3
              else
                addRemainingMinutes hs ws wp fuel remaining_minutes c3) with
        | none => .fuelOut
        | some r => .ok r

/-- `WorkdayCalendar::getWorkdayIncrement`.  The float increment is
modelled as a rational; `static_cast<long>` of the non-negative product is
`Rat.floor`.  The `int` divisions `workDay_IncrementInMinutes /
workdayInMinutes` and `... % workdayInMinutes` divide by zero when the
configured duration is zero minutes, modelled by `CalcResult.crash`. -/
def getWorkdayIncrement (fuel : Nat) (w : WorkdayCalendar)
    (startDate : Date) (incrementInWorkdays : ℚ) : CalcResult :=
  if isValidDate startDate = false then
    .ok startDate.generateInvalidDate
  else
    match w.workday_start, w.workday_stop, w.workday_duration with
    | some ws, some wp, some wd =>
      let decrement : Bool := decide (incrementInWorkdays < 0)
      let inc := if decrement then -incrementInWorkdays else incrementInWorkdays
      let workdayInMinutes := convertToMinutes wd.getTime
      if workdayInMinutes = 0 then .crash
      else
        workdayIncrementCore fuel w.holidays ws wp decrement workdayInMinutes
          (Rat.floor (inc * (workdayInMinutes : ℚ))) startDate
    | _, _, _ => .ok startDate.generateInvalidDate

/-- `Rat.floor` agrees with the `FloorRing` floor on `ℚ`. -/
theorem rat_floor_eq_int_floor (q : ℚ) : Rat.floor q = ⌊q⌋ := by
  rw [Rat.floor_def', Rat.floor_def]

/-- Unfolding `getWorkdayIncrement` to its integer core when the start
date is valid, the configuration is present, and the duration is
nonzero. -/
theorem getWorkdayIncrement_eq_core (fuel : Nat) (w : WorkdayCalendar)
    (ws wp wd d : Date) (q : ℚ)
    (hws : w.workday_start = some ws) (hwp : w.workday_stop = some wp)
    (hwd : w.workday_duration = some wd)
    (hvalid : isValidDate d = true)
    (hdur : convertToMinutes wd.getTime ≠ 0) :
    getWorkdayIncrement fuel w d q =
      workdayIncrementCore fuel w.holidays ws wp (decide (q < 0)) (convertToMinutes wd.getTime)
        (Rat.floor ((if decide (q < 0) then -q else q) * ((convertToMinutes wd.getTime : Int) : ℚ))) d := by
  unfold getWorkdayIncrement
  rw [hws, hwp, hwd, hvalid]
  simp [hdur]

/-- C1: with the workday configured as start 08:00 / stop 16:00 (8-hour
duration, no holidays), `getWorkdayIncrement(2004-01-01 15:07, 0.25)`
returns `2004-01-02 09:07` and `getWorkdayIncrement(2004-01-01 16:00,
0.5)` returns `2004-01-02 12:00`; the second call starts exactly at the
stop boundary and rolls to the next workday's start before the remaining
minutes are added. -/
theorem workday_increment_quarter_and_half :
    getWorkdayIncrement 366
        (setWorkdayStartAndStop WorkdayCalendar.init ⟨2004, 1, 1, 8, 0⟩ ⟨2004, 1, 1, 16, 0⟩)
        ⟨2004, 1, 1, 15, 7⟩ (1/4) = .ok ⟨2004, 1, 2, 9, 7⟩ ∧
    getWorkdayIncrement 366
        (setWorkdayStartAndStop WorkdayCalendar.init ⟨2004, 1, 1, 8, 0⟩ ⟨2004, 1, 1, 16, 0⟩)
        ⟨2004, 1, 1, 16, 0⟩ (1/2) = .ok ⟨2004, 1, 2, 12, 0⟩ := by
  have hcfg : setWorkdayStartAndStop WorkdayCalendar.init ⟨2004, 1, 1, 8, 0⟩ ⟨2004, 1, 1, 16, 0⟩
      = ⟨some ⟨2004, 1, 1, 8, 0⟩, some ⟨2004, 1, 1, 16, 0⟩, some ⟨0, 0, 0, 8, 0⟩, noHolidays⟩ := by
    decide
  constructor
  · rw [hcfg, getWorkdayIncrement_eq_core 366 _ ⟨2004, 1, 1, 8, 0⟩ ⟨2004, 1, 1, 16, 0⟩
        ⟨0, 0, 0, 8, 0⟩ _ _ rfl rfl rfl (by decide) (by decide)]
    norm_num [Date.getTime, convertToMinutes, rat_floor_eq_int_floor]
    decide
  · rw [hcfg, getWorkdayIncrement_eq_core 366 _ ⟨2004, 1, 1, 8, 0⟩ ⟨2004, 1, 1, 16, 0⟩
        ⟨0, 0, 0, 8, 0⟩ _ _ rfl rfl rfl (by decide) (by decide)]
    norm_num [Date.getTime, convertToMinutes, rat_floor_eq_int_floor]
    decide

/-- The source's nested leap-year test is the standard flat formula. -/
theorem isLeapYear_iff (y : Int) :
    isLeapYear y = true ↔ ((y.tmod 4 = 0 ∧ y.tmod 100 ≠ 0) ∨ y.tmod 400 = 0) := by
  unfold isLeapYear
  split_ifs with h1 h2 h3 <;> simp_all
  intro h400
  exact h1 (Int.tmod_eq_zero_of_dvd (dvd_trans (by norm_num) (Int.dvd_of_tmod_eq_zero h400)))

/-- Modelled from the spec's words: the standard 30/31-day table with the
flat leap-year formula for February. -/
def specDaysInMonth (y m : Int) : Int :=
  if m = 2 then (if (y.tmod 4 = 0 ∧ y.tmod 100 ≠ 0) ∨ y.tmod 400 = 0 then 29 else 28)
  else if m = 4 ∨ m = 6 ∨ m = 9 ∨ m = 11 then 30
  else 31

/-- On in-range months the source's day table agrees with the spec's. -/
theorem daysInMonth_eq_spec (y m : Int) (h1 : 1 ≤ m) (h2 : m ≤ 12) :
    daysInMonth y m = specDaysInMonth y m := by
  unfold daysInMonth specDaysInMonth
  have hl := isLeapYear_iff y
  interval_cases m <;> simp_all

/-- Modelled from the spec's words: the validity predicate exactly as the
spec states it. -/
def specValidDate (d : Date) : Prop :=
  0 ≤ d.year ∧ 1 ≤ d.month ∧ d.month ≤ 12 ∧ 1 ≤ d.day
    ∧ d.day ≤ specDaysInMonth d.year d.month
    ∧ 0 ≤ d.hour ∧ d.hour < 24 ∧ 0 ≤ d.minute ∧ d.minute < 60

/-- The source's validity check decides exactly the spec's predicate. -/
theorem isValidDate_iff (d : Date) : isValidDate d = true ↔ specValidDate d := by
  unfold isValidDate specValidDate
  constructor
  · intro h
    by_cases h1 : d.year < 0 ∨ d.month < 1 ∨ d.month > 12 ∨ d.day < 1
        ∨ d.day > daysInMonth d.year d.month
    · simp [h1] at h
    · by_cases h2 : d.hour < 0 ∨ 24 ≤ d.hour ∨ d.minute < 0 ∨ 60 ≤ d.minute
      · simp [h1, h2] at h
      · push_neg at h1 h2
        obtain ⟨hy, hm1, hm2, hd1, hd2⟩ := h1
        obtain ⟨hh1, hh2, hmin1, hmin2⟩ := h2
        rw [daysInMonth_eq_spec d.year d.month (by omega) (by omega)] at hd2
        exact ⟨by omega, by omega, by omega, by omega, hd2, hh1, hh2, hmin1, hmin2⟩
  · intro ⟨hy, hm1, hm2, hd1, hd2, hh1, hh2, hmin1, hmin2⟩
    rw [if_neg, if_neg]
    · push_neg
      exact ⟨hh1, hh2, hmin1, hmin2⟩
    · push_neg
      refine ⟨by omega, by omega, by omega, by omega, ?_⟩
      rw [daysInMonth_eq_spec d.year d.month (by omega) (by omega)]
      exact hd2

/-- C5: `isValidDate` returns true exactly on the spec's ranges (year ≥ 0,
month 1..12, day 1..days-in-month with the Gregorian leap rule, hour
0..23, minute 0..59); Feb 29 is valid in 2024 and 2000 and invalid in
2023 and 1900. -/
theorem valid_date_characterization :
    (∀ d : Date, isValidDate d = true ↔ specValidDate d) ∧
    isValidDate ⟨2024, 2, 29, 0, 0⟩ = true ∧
    isValidDate ⟨2000, 2, 29, 0, 0⟩ = true ∧
    isValidDate ⟨2023, 2, 29, 0, 0⟩ = false ∧
    isValidDate ⟨1900, 2, 29, 0, 0⟩ = false :=
  ⟨isValidDate_iff, by decide, by decide, by decide, by decide⟩

/-- C6: `isHoliday` is true exactly when the day of week is Sunday (0) or
Saturday (6), or the (year, month, day) key is in the one-time set, or the
(month, day) pair is in the recurring set; the weekend test short-circuits
ahead of both set lookups, with no validity check of the date first. -/
theorem isHoliday_characterization :
    (∀ (hs : Holidays) (d : Date),
        isHoliday hs d = true ↔
          (dayOfWeek d = 0 ∨ dayOfWeek d = 6
            ∨ hs.oneTime.contains (d.year, d.month, d.day) = true
            ∨ hs.recurring.contains (d.month, d.day) = true)) ∧
    (∀ (hs : Holidays) (d : Date),
        (dayOfWeek d = 0 ∨ dayOfWeek d = 6) → isHoliday hs d = true) := by
  constructor
  · intro hs d
    unfold isHoliday
    split_ifs <;> simp_all
  · intro hs d h
    unfold isHoliday
    simp [h]

/-- Witness for C6 at a concrete Saturday. -/
theorem isHoliday_characterization_witness :
    dayOfWeek ⟨2024, 5, 11, 9, 0⟩ = 6 ∧ isHoliday noHolidays ⟨2024, 5, 11, 9, 0⟩ = true :=
  ⟨by decide, isHoliday_characterization.2 noHolidays ⟨2024, 5, 11, 9, 0⟩ (Or.inr (by decide))⟩

/-- C8: `addMinutes` is plain division/remainder by 60 of the sum with no
24-hour wraparound (the hour component can reach 24 and beyond), while
`subtractMinutes` adds 1440 to a negative difference before dividing. -/
theorem minute_arithmetic_characterization :
    (∀ base delta : Int,
        addMinutes base delta = ((base + delta).tdiv 60, (base + delta).tmod 60)) ∧
    (∀ larger smaller : Int,
        subtractMinutes larger smaller =
          if larger - smaller < 0 then
            ((larger - smaller + 1440).tdiv 60, (larger - smaller + 1440).tmod 60)
          else
            ((larger - smaller).tdiv 60, (larger - smaller).tmod 60)) ∧
    addMinutes 1440 60 = (25, 0) := by
  refine ⟨fun _ _ => rfl, fun larger smaller => ?_, by decide⟩
  simp only [subtractMinutes]
  split_ifs <;> rfl

/-- C10: the Sakamoto table access `t[month - 1]` is in bounds for every
month in 1..12, and out of bounds at the all-(-1) invalid sentinel — which
`isHoliday` reaches because it calls `dayOfWeek` with no validity check. -/
theorem dayOfWeek_table_access :
    (∀ d : Date, 1 ≤ d.month → d.month ≤ 12 → (dayOfWeek? d).isSome = true) ∧
    dayOfWeek? ((Date.mk 0 0 0 0 0).generateInvalidDate) = none := by
  constructor
  · intro d h1 h2
    have h : 0 ≤ d.month - 1 ∧ (d.month - 1).toNat < sakamotoTable.length := by
      refine ⟨by omega, ?_⟩
      show (d.month - 1).toNat < 12
      omega
    unfold dayOfWeek?
    simp only [dif_pos h, Option.isSome_some]
  · decide

/-- Witness for C10 at a concrete in-range month. -/
theorem dayOfWeek_table_access_witness :
    (dayOfWeek? ⟨2024, 5, 20, 8, 0⟩).isSome = true :=
  dayOfWeek_table_access.1 ⟨2024, 5, 20, 8, 0⟩ (by decide) (by decide)

/-- C4: after any `setWorkdayStartAndStop` call the configuration is all
or nothing — both arguments valid stores both and recomputes the duration
from them; either argument invalid clears both start and stop; start and
stop are never half-set. -/
theorem setWorkdayStartAndStop_all_or_nothing (w : WorkdayCalendar) (start stop : Date) :
    (isValidDate start = true → isValidDate stop = true →
      (setWorkdayStartAndStop w start stop).workday_start = some start ∧
      (setWorkdayStartAndStop w start stop).workday_stop = some stop ∧
      (setWorkdayStartAndStop w start stop).workday_duration = some (durationDate start stop)) ∧
    (¬(isValidDate start = true ∧ isValidDate stop = true) →
      (setWorkdayStartAndStop w start stop).workday_start = none ∧
      (setWorkdayStartAndStop w start stop).workday_stop = none) ∧
    (setWorkdayStartAndStop w start stop).workday_start.isSome
      = (setWorkdayStartAndStop w start stop).workday_stop.isSome := by
  unfold setWorkdayStartAndStop
  cases h1 : isValidDate start <;> cases h2 : isValidDate stop <;> simp [h1, h2]

/-- Witness for C4: the spec's month = -5 example clears both slots. -/
theorem setWorkdayStartAndStop_all_or_nothing_witness :
    (setWorkdayStartAndStop WorkdayCalendar.init ⟨2024, -5, 20, 8, 0⟩ ⟨2024, 5, 20, 17, 0⟩).workday_start = none ∧
    (setWorkdayStartAndStop WorkdayCalendar.init ⟨2024, -5, 20, 8, 0⟩ ⟨2024, 5, 20, 17, 0⟩).workday_stop = none :=
  (setWorkdayStartAndStop_all_or_nothing WorkdayCalendar.init ⟨2024, -5, 20, 8, 0⟩
    ⟨2024, 5, 20, 17, 0⟩).2.1 (by decide)

/-- Modelled from the spec's words: one calendar day forward — increment
the day unless it is the last of the month (per `daysInMonth`), else day 1
of the next month, rolling December into January of the next year. -/
def nextDaySpec (d : Date) : Date :=
  if d.day < daysInMonth d.year d.month then ⟨d.year, d.month, d.day + 1, d.hour, d.minute⟩
  else if d.month < 12 then ⟨d.year, d.month + 1, 1, d.hour, d.minute⟩
  else ⟨d.year + 1, 1, 1, d.hour, d.minute⟩

/-- Modelled from the spec's words: one calendar day backward — decrement
the day unless it is day 1, else the last day (per `daysInMonth`) of the
previous month, rolling January into December of the previous year. -/
def prevDaySpec (d : Date) : Date :=
  if 1 < d.day then ⟨d.year, d.month, d.day - 1, d.hour, d.minute⟩
  else if 1 < d.month then
    ⟨d.year, d.month - 1, daysInMonth d.year (d.month - 1), d.hour, d.minute⟩
  else ⟨d.year - 1, 12, daysInMonth (d.year - 1) 12, d.hour, d.minute⟩

/-- C7: `addDay` advances and `removeDay` retreats the calendar date by
exactly one day, with month-end rollover via `daysInMonth` and year
rollover between December and January, and both leave the hour and minute
components unchanged. -/
theorem add_remove_day_one_calendar_day (d : Date) :
    addDay d = nextDaySpec d ∧ removeDay d = prevDaySpec d ∧
    (addDay d).hour = d.hour ∧ (addDay d).minute = d.minute ∧
    (removeDay d).hour = d.hour ∧ (removeDay d).minute = d.minute := by
  refine ⟨?_, ?_, ?_, ?_, ?_, ?_⟩ <;>
    · simp only [addDay, removeDay, nextDaySpec, prevDaySpec, Date.setDate]
      split_ifs <;> first | rfl | (exfalso; omega)

/-- The alignment loop is the identity on a non-holiday date. -/
theorem alignToWorkday_of_not_holiday (hs : Holidays) (ws wp : Date) (dec : Bool)
    (fuel : Nat) (d : Date) (h : isHoliday hs d = false) :
    alignToWorkday hs ws wp dec fuel d = some d := by
  cases fuel <;> simp [alignToWorkday, h]

/-- Adding zero remaining minutes inside the work window is the identity. -/
theorem addRemainingMinutes_zero_in_window (hs : Holidays) (ws wp : Date) (fuel : Nat)
    (d : Date) (hvalid : isValidDate d = true)
    (hlow : convertToMinutes ws.getTime ≤ convertToMinutes d.getTime)
    (hhigh : convertToMinutes d.getTime < convertToMinutes wp.getTime) :
    addRemainingMinutes hs ws wp fuel 0 d = some d := by
  obtain ⟨-, -, -, -, -, hh1, hh2, hm1, hm2⟩ := (isValidDate_iff d).1 hvalid
  have hcur : convertToMinutes d.getTime = d.hour * 60 + d.minute := rfl
  dsimp only [addRemainingMinutes]
  rw [if_neg (by omega), if_neg (by omega)]
  dsimp only [Option.bind]
  rw [if_pos (by omega)]
  dsimp only [addMinutes, Date.setDate]
  have ht1 : (convertToMinutes d.getTime + 0).tdiv 60 = d.hour := by
    rw [hcur, Int.tdiv_eq_ediv (by omega) (by omega)]
    omega
  have ht2 : (convertToMinutes d.getTime + 0).tmod 60 = d.minute := by
    rw [hcur, Int.tmod_eq_emod (by omega) (by omega)]
    omega
  rw [ht1, ht2]

/-- The core algorithm at zero increment minutes from a non-holiday date
inside the work window is the identity. -/
theorem workdayIncrementCore_zero (fuel : Nat) (hs : Holidays) (ws wp d : Date)
    (durMin : Int) (hvalid : isValidDate d = true) (hhol : isHoliday hs d = false)
    (hlow : convertToMinutes ws.getTime ≤ convertToMinutes d.getTime)
    (hhigh : convertToMinutes d.getTime < convertToMinutes wp.getTime) :
    workdayIncrementCore fuel hs ws wp false durMin 0 d = .ok d := by
  unfold workdayIncrementCore
  rw [alignToWorkday_of_not_holiday hs ws wp false fuel d hhol]
  simp only [Int.zero_tdiv, Int.zero_tmod, Int.toNat_zero, iterOpt, Bool.false_eq_true,
    if_false]
  rw [addRemainingMinutes_zero_in_window hs ws wp fuel d hvalid hlow hhigh]

/-- The configured duration in minutes is stop minus start when the work
window is nonempty. -/
theorem durationDate_minutes (ws wp : Date)
    (h : convertToMinutes ws.getTime < convertToMinutes wp.getTime) :
    convertToMinutes (durationDate ws wp).getTime
      = convertToMinutes wp.getTime - convertToMinutes ws.getTime := by
  have h' : ¬(convertToMinutes (wp.hour, wp.minute) - convertToMinutes (ws.hour, ws.minute) < 0) := by
    simp only [Date.getTime] at h
    omega
  dsimp only [durationDate, subtractTime, Date.getTime]
  rw [if_neg h']
  have := Int.tdiv_add_tmod
    (convertToMinutes (wp.hour, wp.minute) - convertToMinutes (ws.hour, ws.minute)) 60
  simp only [convertToMinutes] at *
  omega

/-- C2: with start/stop configured, starting from a valid non-holiday date
whose clock time lies inside the work window (start ≤ t < stop), a zero
workday increment returns the date unchanged. -/
theorem workday_increment_zero_identity (fuel : Nat) (hs : Holidays) (ws wp d : Date)
    (hvalid : isValidDate d = true) (hhol : isHoliday hs d = false)
    (hlow : convertToMinutes ws.getTime ≤ convertToMinutes d.getTime)
    (hhigh : convertToMinutes d.getTime < convertToMinutes wp.getTime) :
    getWorkdayIncrement fuel ⟨some ws, some wp, some (durationDate ws wp), hs⟩ d 0 = .ok d := by
  have hwin : convertToMinutes ws.getTime < convertToMinutes wp.getTime := by omega
  have hdurEq := durationDate_minutes ws wp hwin
  have hdur : convertToMinutes (durationDate ws wp).getTime ≠ 0 := by omega
  rw [getWorkdayIncrement_eq_core fuel _ ws wp (durationDate ws wp) d 0 rfl rfl rfl hvalid hdur]
  have hq : decide ((0 : ℚ) < 0) = false := by norm_num
  rw [hq]
  have hfloor : Rat.floor ((if (false : Bool) = true then -(0 : ℚ) else 0)
      * ((convertToMinutes (durationDate ws wp).getTime : Int) : ℚ)) = 0 := by
    rw [if_neg (by simp)]
    rw [zero_mul, rat_floor_eq_int_floor]
    exact Int.floor_zero
  rw [hfloor]
  exact workdayIncrementCore_zero fuel hs ws wp d _ hvalid hhol hlow hhigh

/-- Witness for C2 at a concrete mid-window date. -/
theorem workday_increment_zero_identity_witness :
    getWorkdayIncrement 10
        ⟨some ⟨2004, 1, 1, 8, 0⟩, some ⟨2004, 1, 1, 16, 0⟩,
          some (durationDate ⟨2004, 1, 1, 8, 0⟩ ⟨2004, 1, 1, 16, 0⟩), noHolidays⟩
        ⟨2004, 1, 1, 12, 30⟩ 0 = .ok ⟨2004, 1, 1, 12, 30⟩ :=
  workday_increment_zero_identity 10 noHolidays ⟨2004, 1, 1, 8, 0⟩ ⟨2004, 1, 1, 16, 0⟩
    ⟨2004, 1, 1, 12, 30⟩ (by decide) (by decide) (by decide) (by decide)

/-- The integer core of the increment algorithm never reaches the
division-by-zero abort; only the wrapper's guard can. -/
theorem workdayIncrementCore_ne_crash (fuel : Nat) (hs : Holidays) (ws wp : Date)
    (dec : Bool) (a b : Int) (d : Date) :
    workdayIncrementCore fuel hs ws wp dec a b d ≠ .crash := by
  unfold workdayIncrementCore
  dsimp only
  repeat' split <;> try simp

/-- C3 counterexample: a configuration with start time equal to stop time
(both arguments valid, so `setWorkdayStartAndStop` accepts them) gives a
zero-minute duration, and `getWorkdayIncrement` on a valid start date then
reaches the integer division by zero instead of returning a `Date`. -/
theorem workday_increment_division_by_zero :
    getWorkdayIncrement 10
        (setWorkdayStartAndStop WorkdayCalendar.init ⟨2024, 5, 20, 8, 0⟩ ⟨2024, 5, 20, 8, 0⟩)
        ⟨2024, 5, 20, 9, 0⟩ 1 = .crash := by
  have hcfg : setWorkdayStartAndStop WorkdayCalendar.init ⟨2024, 5, 20, 8, 0⟩ ⟨2024, 5, 20, 8, 0⟩
      = ⟨some ⟨2024, 5, 20, 8, 0⟩, some ⟨2024, 5, 20, 8, 0⟩, some ⟨0, 0, 0, 0, 0⟩, noHolidays⟩ := by
    decide
  rw [hcfg]
  rfl

/-- C3 (amended): `getWorkdayIncrement` returns the all-(-1) sentinel
whenever the start date is invalid or any of the start/stop/duration
configuration slots is absent; and it never reaches the division-by-zero
abort provided the configured duration is a nonzero number of minutes. -/
theorem workday_increment_failure_contract (fuel : Nat) (w : WorkdayCalendar)
    (d : Date) (q : ℚ) :
    ((isValidDate d = false ∨ w.workday_start = none ∨ w.workday_stop = none
        ∨ w.workday_duration = none) →
      getWorkdayIncrement fuel w d q = .ok ⟨-1, -1, -1, -1, -1⟩) ∧
    ((∀ wd, w.workday_duration = some wd → convertToMinutes wd.getTime ≠ 0) →
      getWorkdayIncrement fuel w d q ≠ .crash) := by
  obtain ⟨os, op, od, hols⟩ := w
  constructor
  · intro h
    unfold getWorkdayIncrement
    cases hv : isValidDate d with
    | false => simp [Date.generateInvalidDate]
    | true =>
      simp only [hv] at h
      rcases os with _ | s <;> rcases op with _ | p <;> rcases od with _ | dd <;>
        simp_all [Date.generateInvalidDate]
  · intro hdur
    unfold getWorkdayIncrement
    cases hv : isValidDate d with
    | false => simp
    | true =>
      rcases os with _ | s <;> rcases op with _ | p <;> rcases od with _ | dd <;> simp_all
      exact workdayIncrementCore_ne_crash fuel hols s p _ _ _ d

/-- Witness for C3's amended contract: calling before any configuration
returns the sentinel. -/
theorem workday_increment_failure_contract_witness :
    getWorkdayIncrement 5 WorkdayCalendar.init ⟨2024, 5, 20, 9, 0⟩ 1 = .ok ⟨-1, -1, -1, -1, -1⟩ :=
  (workday_increment_failure_contract 5 WorkdayCalendar.init ⟨2024, 5, 20, 9, 0⟩ 1).1
    (Or.inr (Or.inl rfl))

/-- Every calendar day of the leap year 2024, in registration order. -/
def allDates2024 : List Date :=
  (List.range 12).flatMap fun m =>
    (List.range 31).map fun dd => ⟨2024, (m : Int) + 1, (dd : Int) + 1, 0, 0⟩

/-- The holiday configuration produced by registering every calendar day
of a leap year through `setRecurringHoliday` (each insertion passes the
validity check, so this state is reachable through the public API). -/
def everyDayHolidays : Holidays :=
  allDates2024.foldl setRecurringHoliday noHolidays

set_option maxRecDepth 10000 in
/-- Bounded exhaustive check: the every-day configuration contains every
(month, day) pair that is in range for some year. -/
theorem everyDayHolidays_contains_bounded :
    ∀ p ∈ Finset.Icc (1 : Int) 12, ∀ q ∈ Finset.Icc (1 : Int) 31,
      q ≤ daysInMonth 2024 p → everyDayHolidays.recurring.contains (p, q) = true := by
  decide

/-- No month of any year is longer than the same month of a leap year. -/
theorem daysInMonth_le_leap (y m : Int) (h1 : 1 ≤ m) (h2 : m ≤ 12) :
    daysInMonth y m ≤ daysInMonth 2024 m := by
  have h24 : isLeapYear 2024 = true := by decide
  unfold daysInMonth
  simp only [h24]
  interval_cases m <;> split_ifs <;> omega

/-- Every date with in-range month and day is a holiday under the
every-day configuration. -/
theorem everyDayHolidays_isHoliday (d : Date) (h1 : 1 ≤ d.month) (h2 : d.month ≤ 12)
    (h3 : 1 ≤ d.day) (h4 : d.day ≤ daysInMonth d.year d.month) :
    isHoliday everyDayHolidays d = true := by
  have hle : d.day ≤ daysInMonth 2024 d.month := by
    have := daysInMonth_le_leap d.year d.month h1 h2
    omega
  have h31 : daysInMonth 2024 d.month ≤ 31 := by
    unfold daysInMonth
    split_ifs <;> omega
  have hc := everyDayHolidays_contains_bounded d.month (by simp [Finset.mem_Icc]; omega)
    d.day (by simp [Finset.mem_Icc]; omega) hle
  unfold isHoliday
  dsimp only
  split_ifs with hw ho <;> rfl

/-- `addDay` keeps the month in 1..12 and the day in range for its
month. -/
theorem addDay_preserves_range (d : Date) (h1 : 1 ≤ d.month) (h2 : d.month ≤ 12)
    (h3 : 1 ≤ d.day) (h4 : d.day ≤ daysInMonth d.year d.month) :
    1 ≤ (addDay d).month ∧ (addDay d).month ≤ 12 ∧ 1 ≤ (addDay d).day
      ∧ (addDay d).day ≤ daysInMonth (addDay d).year (addDay d).month := by
  have hpos : ∀ (y m : Int), 1 ≤ daysInMonth y m := by
    intro y m
    unfold daysInMonth
    split_ifs <;> omega
  simp only [addDay, Date.setDate]
  split_ifs with ha hb <;> dsimp only <;>
    refine ⟨by omega, by omega, by omega, ?_⟩
  · apply hpos
  · apply hpos
  · omega

/-- From a date with in-range month and day, the holiday-skipping loop
exhausts any fuel under the every-day configuration. -/
theorem skipWhileHoliday_everyDay_none (fuel : Nat) :
    ∀ d : Date, 1 ≤ d.month → d.month ≤ 12 → 1 ≤ d.day →
      d.day ≤ daysInMonth d.year d.month →
      skipWhileHoliday everyDayHolidays false fuel d = none := by
  induction fuel with
  | zero =>
    intro d h1 h2 h3 h4
    simp [skipWhileHoliday, everyDayHolidays_isHoliday d h1 h2 h3 h4]
  | succ n ih =>
    intro d h1 h2 h3 h4
    have hstep : skipStep false d = addDay d := rfl
    simp only [skipWhileHoliday, everyDayHolidays_isHoliday d h1 h2 h3 h4, if_pos, hstep]
    obtain ⟨g1, g2, g3, g4⟩ := addDay_preserves_range d h1 h2 h3 h4
    exact ih (addDay d) g1 g2 g3 g4

/-- The termination property the claim asserts of the holiday-skipping
loop, at one configuration and start date: no bound ever suffices. -/
def skipLoopNeverFinishes (hs : Holidays) (d : Date) : Prop :=
  ∀ fuel : Nat, skipWhileHoliday hs false fuel d = none

/-- C9 counterexample: with every calendar day registered as a recurring
holiday — a configuration reachable through `setRecurringHoliday`, whose
validity filter accepts all of these dates — the holiday-skipping loop of
`incrementWorkDay` never terminates from 2024-01-05. -/
theorem skip_loop_diverges_on_every_day_holidays :
    skipLoopNeverFinishes everyDayHolidays ⟨2024, 1, 5, 8, 0⟩ :=
  fun fuel => skipWhileHoliday_everyDay_none fuel ⟨2024, 1, 5, 8, 0⟩
    (by decide) (by decide) (by decide) (by decide)

/-- Iterated single-day stepping (the trajectory of the skip loop). -/
def stepIter (decrement : Bool) : Nat → Date → Date
  | 0, d => d
  | (n + 1), d => stepIter decrement n (skipStep decrement d)

/-- Iterated alignment stepping (the trajectory of the alignment loop). -/
def alignStepIter (start stop : Date) (decrement : Bool) : Nat → Date → Date
  | 0, d => d
  | (n + 1), d => alignStepIter start stop decrement n (alignStep start stop decrement d)

/-- The skip loop terminates with a non-holiday result whenever some date
on its trajectory within the fuel bound is a non-holiday. -/
theorem skipWhileHoliday_terminates (hs : Holidays) (dec : Bool) :
    ∀ (fuel k : Nat) (d : Date), k ≤ fuel →
      isHoliday hs (stepIter dec k d) = false →
      ∃ r, skipWhileHoliday hs dec fuel d = some r ∧ isHoliday hs r = false := by
  intro fuel
  induction fuel with
  | zero =>
    intro k d hk hnh
    have hk0 : k = 0 := by omega
    subst hk0
    rw [show stepIter dec 0 d = d from rfl] at hnh
    exact ⟨d, by simp [skipWhileHoliday, hnh], hnh⟩
  | succ n ih =>
    intro k d hk hnh
    cases hd : isHoliday hs d with
    | false => exact ⟨d, by simp [skipWhileHoliday, hd], hd⟩
    | true =>
      cases k with
      | zero =>
        rw [show stepIter dec 0 d = d from rfl] at hnh
        rw [hnh] at hd
        cases hd
      | succ k1 =>
        obtain ⟨r, hr1, hr2⟩ := ih k1 (skipStep dec d) (by omega) hnh
        exact ⟨r, by simp [skipWhileHoliday, hd, hr1], hr2⟩

/-- The alignment loop terminates with a non-holiday result whenever some
date on its trajectory within the fuel bound is a non-holiday. -/
theorem alignToWorkday_terminates (hs : Holidays) (ws wp : Date) (dec : Bool) :
    ∀ (fuel k : Nat) (d : Date), k ≤ fuel →
      isHoliday hs (alignStepIter ws wp dec k d) = false →
      ∃ r, alignToWorkday hs ws wp dec fuel d = some r ∧ isHoliday hs r = false := by
  intro fuel
  induction fuel with
  | zero =>
    intro k d hk hnh
    have hk0 : k = 0 := by omega
    subst hk0
    rw [show alignStepIter ws wp dec 0 d = d from rfl] at hnh
    exact ⟨d, by simp [alignToWorkday, hnh], hnh⟩
  | succ n ih =>
    intro k d hk hnh
    cases hd : isHoliday hs d with
    | false => exact ⟨d, by simp [alignToWorkday, hd], hd⟩
    | true =>
      cases k with
      | zero =>
        rw [show alignStepIter ws wp dec 0 d = d from rfl] at hnh
        rw [hnh] at hd
        cases hd
      | succ k1 =>
        obtain ⟨r, hr1, hr2⟩ := ih k1 (alignStep ws wp dec d) (by omega) hnh
        exact ⟨r, by simp [alignToWorkday, hd, hr1], hr2⟩

/-- C9 (amended): the work-week and workday loops are bounded by the
requested count, and the two holiday-skipping stepping loops (the initial
alignment and the inner loop of `incrementWorkDay`) terminate whenever
some calendar day on the stepping trajectory within the bound is not a
holiday — a condition that holds for every reachable configuration except
one registering every (month, day) pair as recurring, where the loops run
forever. -/
theorem holiday_skip_loops_terminate (hs : Holidays) (ws wp : Date) (dec : Bool)
    (fuel k : Nat) (d : Date) (hk : k ≤ fuel) :
    (isHoliday hs (stepIter dec k d) = false →
      ∃ r, skipWhileHoliday hs dec fuel d = some r ∧ isHoliday hs r = false) ∧
    (isHoliday hs (alignStepIter ws wp dec k d) = false →
      ∃ r, alignToWorkday hs ws wp dec fuel d = some r ∧ isHoliday hs r = false) :=
  ⟨skipWhileHoliday_terminates hs dec fuel k d hk,
   alignToWorkday_terminates hs ws wp dec fuel k d hk⟩

/-- Witness for C9's amended termination statement: from the Saturday
2024-05-11 with no registered holidays, two steps reach Monday and both
loops terminate. -/
theorem holiday_skip_loops_terminate_witness :
    (∃ r, skipWhileHoliday noHolidays false 2 ⟨2024, 5, 11, 9, 0⟩ = some r
        ∧ isHoliday noHolidays r = false) ∧
    (∃ r, alignToWorkday noHolidays ⟨2004, 1, 1, 8, 0⟩ ⟨2004, 1, 1, 16, 0⟩ false 2
        ⟨2024, 5, 11, 9, 0⟩ = some r ∧ isHoliday noHolidays r = false) :=
  ⟨(holiday_skip_loops_terminate noHolidays ⟨2004, 1, 1, 8, 0⟩ ⟨2004, 1, 1, 16, 0⟩ false 2 2
      ⟨2024, 5, 11, 9, 0⟩ (by decide)).1 (by decide),
   (holiday_skip_loops_terminate noHolidays ⟨2004, 1, 1, 8, 0⟩ ⟨2004, 1, 1, 16, 0⟩ false 2 2
      ⟨2024, 5, 11, 9, 0⟩ (by decide)).2 (by decide)⟩

end Workday
